import Mathlib

/-!
Verification of the health-check manager and status-aggregation engine of
the txova-go-observability repository.

The Go sources embedded here are:
  - health/checker.go   : Status-carrying Result and Report values, the
    constructors NewHealthyResult / NewUnhealthyResult / NewDegradedResult,
    Result.WithDetails, and the aggregator NewReport.
  - health/manager.go   : ManagerConfig, Manager, Register, Check (cached),
    runChecks (fan-out evaluation), GetFailureCount, IsReady, IsLive,
    IsStarted, StartBackground, StopBackground.
  - health/handler.go   : the HTTP probe handlers (ReadyHandler modelled).

Modelling conventions:
  - Go `time.Time` instants and the monotonic clock are naturals
    (nanoseconds); `time.Since(t)` at instant `now` is truncated
    subtraction `now - t` (the Go monotonic reading is never negative).
  - Go `time.Duration` is an `Int` of nanoseconds; `Duration.Milliseconds`
    is the Go int64 division, which truncates toward zero (`Int.tdiv`).
  - Go maps (`map[string]Result`, `map[string]bool`, `map[string]int`) are
    association lists with last-write-wins insertion (`mapSet`) and
    zero-value-on-missing lookup, exactly the Go map read semantics.
  - A Go `error` is `Option String` (the message); `nil` is `none`.
  - `map[string]any` detail payloads are association lists of strings; the
    claims only concern their presence and preservation, never the values.
  - A Go `context.Context` is the single observable the health code reads
    from it: whether its deadline has expired (`GoCtx.deadlineExceeded`).
-/

namespace Health

/-- Status is the three-valued Go health status (`type Status string` with the
three constants StatusHealthy, StatusUnhealthy, StatusDegraded; every status
value produced by this package is one of the three, so the embedding uses an
inductive type). -/
inductive Status where
  | healthy
  | unhealthy
  | degraded
deriving DecidableEq, Repr

/-- durationMilliseconds is the Go `time.Duration.Milliseconds()`: int64
division of nanoseconds by 1e6, truncating toward zero. -/
def durationMilliseconds (d : Int) : Int :=
  Int.tdiv d 1000000

/-- Result mirrors health.Result: the outcome of one checker invocation. -/
structure Result where
  status : Status
  durationMS : Int
  error : String
  details : List (String × String)
  timestamp : Nat
deriving DecidableEq, Repr

/-- NewHealthyResult mirrors health.NewHealthyResult; `now` stands for the
`time.Now()` call. Unset Go fields take their zero values. -/
def NewHealthyResult (duration : Int) (now : Nat) : Result :=
  { status := .healthy
    durationMS := durationMilliseconds duration
    error := ""
    details := []
    timestamp := now }

/-- NewUnhealthyResult mirrors health.NewUnhealthyResult: a nil error leaves
the message at the empty string, otherwise `err.Error()` is stored. -/
def NewUnhealthyResult (duration : Int) (err : Option String) (now : Nat) : Result :=
  let errMsg := match err with
    | none => ""
    | some e => e
  { status := .unhealthy
    durationMS := durationMilliseconds duration
    error := errMsg
    details := []
    timestamp := now }

/-- NewDegradedResult mirrors health.NewDegradedResult. -/
def NewDegradedResult (duration : Int) (message : String) (now : Nat) : Result :=
  { status := .degraded
    durationMS := durationMilliseconds duration
    error := message
    details := []
    timestamp := now }

/-- WithDetails mirrors Result.WithDetails: replace the details field of a
copy of the receiver, leaving every other field unchanged. -/
def WithDetails (r : Result) (details : List (String × String)) : Result :=
  { r with details := details }

/-- mapLookup is a Go map read without the zero-value default: the value
stored under `k`, if any. -/
def mapLookup {α : Type} (l : List (String × α)) (k : String) : Option α :=
  match l with
  | [] => none
  | (k1, v) :: rest => if k1 = k then some v else mapLookup rest k

/-- mapSet is a Go map assignment `l[k] = v`: overwrite the binding of `k`
when present, append it otherwise. -/
def mapSet {α : Type} (l : List (String × α)) (k : String) (v : α) : List (String × α) :=
  match l with
  | [] => [(k, v)]
  | (k1, v1) :: rest => if k1 = k then (k, v) :: rest else (k1, v1) :: mapSet rest k v

/-- lookupBool is a Go `map[string]bool` read: missing keys give false. -/
def lookupBool (l : List (String × Bool)) (k : String) : Bool :=
  (mapLookup l k).getD false

/-- lookupInt is a Go `map[string]int` read: missing keys give zero. -/
def lookupInt (l : List (String × Int)) (k : String) : Int :=
  (mapLookup l k).getD 0

/-- Report mirrors health.Report: the aggregate of one evaluation cycle.
The Go field `Checks map[string]Result` is the association list `checks`. -/
structure Report where
  status : Status
  checks : List (String × Result)
  timestamp : Nat
deriving Repr

/-- aggregateLoop is the loop body of health.NewReport, folded over the
entries of the checks map with the running `status` accumulator. A required
unhealthy entry sets unhealthy and breaks; an optional unhealthy entry or a
degraded entry downgrade a healthy accumulator to degraded. Go iterates the
map in unspecified order; the characterization proved below is
order-independent. -/
def aggregateLoop (requiredChecks : List (String × Bool)) :
    List (String × Result) → Status → Status
  | [], status => status
  | (name, result) :: rest, status =>
    if result.status = .unhealthy then
      if lookupBool requiredChecks name then .unhealthy
      else if status = .healthy then aggregateLoop requiredChecks rest .degraded
      else aggregateLoop requiredChecks rest status
    else if result.status = .degraded ∧ status = .healthy then
      aggregateLoop requiredChecks rest .degraded
    else aggregateLoop requiredChecks rest status

/-- NewReport mirrors health.NewReport: fold the status-collapse loop over
the checks starting from healthy; `now` stands for `time.Now()`. -/
def NewReport (checks : List (String × Result)) (requiredChecks : List (String × Bool))
    (now : Nat) : Report :=
  { status := aggregateLoop requiredChecks checks .healthy
    checks := checks
    timestamp := now }

/-- hasRequiredUnhealthy holds when some entry of the checks map is
unhealthy and its name is marked required. -/
def hasRequiredUnhealthy (req : List (String × Bool)) (l : List (String × Result)) : Bool :=
  l.any (fun p => decide (p.2.status = .unhealthy) && lookupBool req p.1)

/-- hasImpaired holds when some entry of the checks map is unhealthy or
degraded. -/
def hasImpaired (l : List (String × Result)) : Bool :=
  l.any (fun p => decide (p.2.status = .unhealthy) || decide (p.2.status = .degraded))

theorem aggregateLoop_spec (req : List (String × Bool)) (l : List (String × Result))
    (s : Status) :
    aggregateLoop req l s =
      if hasRequiredUnhealthy req l then .unhealthy
      else if s = .healthy then (if hasImpaired l then .degraded else .healthy)
      else s := by
  induction l generalizing s with
  | nil => rcases s <;> simp [aggregateLoop, hasRequiredUnhealthy, hasImpaired]
  | cons hd tl ih =>
    obtain ⟨n, r⟩ := hd
    rcases hs : r.status with _ | _ | _ <;>
      rcases hreq : lookupBool req n with _ | _ <;>
        rcases s with _ | _ | _ <;>
          simp only [aggregateLoop, hasRequiredUnhealthy, hasImpaired, List.any_cons, hs, hreq,
            ih]
    all_goals (try simp)
    all_goals rfl

/-- C1: the overall status computed by NewReport is unhealthy exactly when
some entry is unhealthy and required; otherwise degraded exactly when some
entry is unhealthy (necessarily optional) or degraded; otherwise healthy —
in particular an empty checks map yields healthy. The right-hand side is
order-independent in the checks map. -/
theorem NewReport_status_characterization (checks : List (String × Result))
    (requiredChecks : List (String × Bool)) (now : Nat) :
    (NewReport checks requiredChecks now).status =
      (if hasRequiredUnhealthy requiredChecks checks then .unhealthy
      else if hasImpaired checks then .degraded
      else .healthy)
    ∧ (hasRequiredUnhealthy requiredChecks checks = true ↔
        ∃ p ∈ checks, p.2.status = .unhealthy ∧ lookupBool requiredChecks p.1 = true)
    ∧ (hasImpaired checks = true ↔
        ∃ p ∈ checks, p.2.status = .unhealthy ∨ p.2.status = .degraded)
    ∧ (NewReport ([] : List (String × Result)) requiredChecks now).status = .healthy := by
  refine ⟨?_, ?_, ?_, ?_⟩
  · show aggregateLoop requiredChecks checks .healthy = _
    rw [aggregateLoop_spec]
    rcases hasRequiredUnhealthy requiredChecks checks <;>
      rcases hasImpaired checks <;> simp
  · simp [hasRequiredUnhealthy, List.any_eq_true]
  · simp [hasImpaired, List.any_eq_true]
  · simp [NewReport, aggregateLoop]

/-- GoCtx models the single observable the health code reads from a Go
`context.Context`: whether its deadline has expired (equivalently, whether
`ctx.Err()` is non-nil by the time a context-honoring call returns). -/
structure GoCtx where
  deadlineExceeded : Bool
deriving DecidableEq, Repr

/-- CheckerSpec models one registered health.Checker at the manager
boundary: its `Name()` and `Required()` values, the wall-clock time `latency`
(nanoseconds) its probe takes to come back, and its `Check` function. The Go signature of
`Check(ctx context.Context) Result` returns a Result value for every input
by its type: checker failures are Result values, never unhandled faults,
which the embedding reflects by `check` being a total function. The Nat
argument is the instant the evaluation cycle invokes the checker, standing
for the wall clock the probe may observe. -/
structure CheckerSpec where
  name : String
  required : Bool
  latency : Nat
  check : GoCtx → Nat → Result

/-- ManagerConfig mirrors health.ManagerConfig; durations are nanoseconds.
The Logger field is an external logging collaborator (side effects only,
it feeds no computation) and is not modelled. -/
structure ManagerConfig where
  Timeout : Nat
  CacheTTL : Nat
  BackgroundInterval : Nat
  FailureThreshold : Int
deriving DecidableEq, Repr

/-- DefaultManagerConfig mirrors health.DefaultManagerConfig: 5s timeout,
30s cache TTL, 30s background interval, failure threshold 3. -/
def DefaultManagerConfig : ManagerConfig :=
  { Timeout := 5000000000
    CacheTTL := 30000000000
    BackgroundInterval := 30000000000
    FailureThreshold := 3 }

/-- Manager mirrors the mutable state of health.Manager: the registered
checkers, the requiredness map recorded at registration, the cached report
with its creation time, and the per-name consecutive-failure counters. The
stop/done channels of the background scheduler are modelled separately by
SchedState below. Note the structure holds no notion of a persistent
"has started" latch. -/
structure Manager where
  config : ManagerConfig
  checkers : List CheckerSpec
  requiredChecks : List (String × Bool)
  cachedReport : Option Report
  cacheTime : Nat
  failureCounts : List (String × Int)

/-- NewManager mirrors health.NewManager: empty registry, empty counters,
no cached report. -/
def NewManager (config : ManagerConfig) : Manager :=
  { config := config
    checkers := []
    requiredChecks := []
    cachedReport := none
    cacheTime := 0
    failureCounts := [] }

/-- Register mirrors Manager.Register: append the checker and record its
requiredness under its name (overwriting any earlier binding, as a Go map
assignment does). -/
def Register (m : Manager) (checker : CheckerSpec) : Manager :=
  { m with
    checkers := m.checkers ++ [checker]
    requiredChecks := mapSet m.requiredChecks checker.name checker.required }

/-- checkCtxFor is the context each checker goroutine receives:
`context.WithTimeout(ctx, m.config.Timeout)`. Its deadline has expired by
the time the probe comes back iff the parent deadline already expired or
the probe latency reaches the configured timeout. -/
def checkCtxFor (config : ManagerConfig) (ctx : GoCtx) (c : CheckerSpec) : GoCtx :=
  { deadlineExceeded := ctx.deadlineExceeded || decide (config.Timeout ≤ c.latency) }

/-- collectResults models the collection loop `for r := range resultCh`:
each arriving (name, Result) pair is stored into the results map,
`results[r.name] = r.result`. Every launched goroutine sends exactly one
pair; the Go delivery order is unspecified and is modelled as registration
order (the theorems below depend on it only through map semantics). -/
def collectResults (arrivals : List (String × Result)) : List (String × Result) :=
  arrivals.foldl (fun acc nr => mapSet acc nr.1 nr.2) []

/-- updateFailureCounts is the per-arrival counter bookkeeping of
Manager.runChecks: increment the counter of the name on any non-healthy status,
reset it to zero on healthy. -/
def updateFailureCounts (fc : List (String × Int)) (name : String) (r : Result) :
    List (String × Int) :=
  if r.status ≠ .healthy then mapSet fc name (lookupInt fc name + 1)
  else mapSet fc name 0

/-- runChecks mirrors Manager.runChecks: snapshot the checkers and the
requiredness map, fan out one goroutine per checker under a per-check
timeout context, collect all (name, Result) pairs, update the failure
counters as each result arrives, aggregate with NewReport, and commit the
new report and counters to the manager state. The returned Manager is the
receiver state after the run (Go mutates the receiver in place). -/
def runChecks (m : Manager) (ctx : GoCtx) (now : Nat) : Report × Manager :=
  let checkers := m.checkers
  let requiredChecks := m.requiredChecks
  let arrivals := checkers.map (fun c => (c.name, c.check (checkCtxFor m.config ctx c) now))
  let results := collectResults arrivals
  let failureCounts :=
    arrivals.foldl (fun fc nr => updateFailureCounts fc nr.1 nr.2) m.failureCounts
  let report := NewReport results requiredChecks now
  (report,
    { m with cachedReport := some report, cacheTime := now, failureCounts := failureCounts })

/-- Check mirrors Manager.Check: if a cached report exists and its age is
strictly below the configured CacheTTL, return it unchanged without touching
the checkers; otherwise run a full evaluation cycle. `time.Since(m.cacheTime)`
at instant `now` is `now - m.cacheTime` (the monotonic reading is never
negative). -/
def Check (m : Manager) (ctx : GoCtx) (now : Nat) : Report × Manager :=
  match m.cachedReport with
  | some report =>
    if now - m.cacheTime < m.config.CacheTTL then (report, m)
    else runChecks m ctx now
  | none => runChecks m ctx now

/-- invokedBy lists the names of the checkers whose Check functions the
call `Check m ctx now` invokes: none on the cache fast path, one goroutine
per registered checker on the slow path (the launch loop of runChecks). -/
def invokedBy (m : Manager) (now : Nat) : List String :=
  match m.cachedReport with
  | some _ =>
    if now - m.cacheTime < m.config.CacheTTL then []
    else m.checkers.map CheckerSpec.name
  | none => m.checkers.map CheckerSpec.name

/-- GetFailureCount mirrors Manager.GetFailureCount: the consecutive-failure
counter for the name, zero when absent (Go map zero value). -/
def GetFailureCount (m : Manager) (name : String) : Int :=
  lookupInt m.failureCounts name

/-- IsReady mirrors Manager.IsReady: evaluate (cache-aware) and report ready
iff the aggregate status is healthy or degraded. The second component is the
manager state after the embedded Check call. -/
def IsReady (m : Manager) (ctx : GoCtx) (now : Nat) : Bool × Manager :=
  let res := Check m ctx now
  (decide (res.1.status = .healthy) || decide (res.1.status = .degraded), res.2)

/-- IsLive mirrors Manager.IsLive: always true once the manager exists;
dependency health is ignored. -/
def IsLive (_ : Manager) : Bool :=
  true

/-- IsStarted mirrors Manager.IsStarted: evaluate (cache-aware) and report
started iff the aggregate status is healthy. This is a fresh derivation from
the current report on every call; Manager carries no persistent started
flag. -/
def IsStarted (m : Manager) (ctx : GoCtx) (now : Nat) : Bool × Manager :=
  let res := Check m ctx now
  (decide (res.1.status = .healthy), res.2)

/-- ReadyHandler mirrors Handler.ReadyHandler: call Check on the request
context, answer 503 when the aggregate is unhealthy and 200 otherwise, with
the full report as the body. The value is ((statusCode, body), manager
state after the call). -/
def ReadyHandler (m : Manager) (ctx : GoCtx) (now : Nat) : (Nat × Report) × Manager :=
  let res := Check m ctx now
  let statusCode : Nat := if res.1.status = .unhealthy then 503 else 200
  ((statusCode, res.1), res.2)

theorem mapLookup_mapSet_self {α : Type} (l : List (String × α)) (k : String) (v : α) :
    mapLookup (mapSet l k v) k = some v := by
  induction l with
  | nil => simp [mapSet, mapLookup]
  | cons hd tl ih =>
    obtain ⟨k1, v1⟩ := hd
    by_cases h : k1 = k <;> simp [mapSet, mapLookup, h, ih]

theorem mapLookup_mapSet_ne {α : Type} (l : List (String × α)) (k k2 : String) (v : α)
    (h : k ≠ k2) : mapLookup (mapSet l k v) k2 = mapLookup l k2 := by
  induction l with
  | nil => simp [mapSet, mapLookup, h]
  | cons hd tl ih =>
    obtain ⟨k1, v1⟩ := hd
    by_cases h1 : k1 = k
    · subst h1
      simp [mapSet, mapLookup, h]
    · simp [mapSet, mapLookup, h1, ih]

theorem mapLookup_foldl_mapSet_not_mem {α : Type} (arrivals : List (String × α))
    (acc : List (String × α)) (name : String) (h : name ∉ arrivals.map Prod.fst) :
    mapLookup (arrivals.foldl (fun acc nr => mapSet acc nr.1 nr.2) acc) name =
      mapLookup acc name := by
  induction arrivals generalizing acc with
  | nil => simp
  | cons hd tl ih =>
    simp only [List.map_cons, List.mem_cons, not_or] at h
    simp only [List.foldl_cons]
    rw [ih _ h.2, mapLookup_mapSet_ne _ _ _ _ (fun he => h.1 he.symm)]

theorem mapLookup_foldl_mapSet_of_mem {α : Type} (arrivals : List (String × α))
    (acc : List (String × α)) (name : String) (v : α)
    (hnd : (arrivals.map Prod.fst).Nodup) (hmem : (name, v) ∈ arrivals) :
    mapLookup (arrivals.foldl (fun acc nr => mapSet acc nr.1 nr.2) acc) name = some v := by
  induction arrivals generalizing acc with
  | nil => simp at hmem
  | cons hd tl ih =>
    obtain ⟨n0, v0⟩ := hd
    simp only [List.map_cons, List.nodup_cons] at hnd
    rcases List.mem_cons.1 hmem with heq | hmem2
    · cases heq
      simp only [List.foldl_cons]
      rw [mapLookup_foldl_mapSet_not_mem _ _ _ hnd.1, mapLookup_mapSet_self]
    · simp only [List.foldl_cons]
      exact ih _ hnd.2 hmem2

theorem mapLookup_foldl_update_not_mem (arrivals : List (String × Result))
    (fc : List (String × Int)) (name : String) (h : name ∉ arrivals.map Prod.fst) :
    mapLookup (arrivals.foldl (fun fc nr => updateFailureCounts fc nr.1 nr.2) fc) name =
      mapLookup fc name := by
  induction arrivals generalizing fc with
  | nil => simp
  | cons hd tl ih =>
    simp only [List.map_cons, List.mem_cons, not_or] at h
    simp only [List.foldl_cons]
    rw [ih _ h.2]
    unfold updateFailureCounts
    split <;> rw [mapLookup_mapSet_ne _ _ _ _ (fun he => h.1 he.symm)]

theorem lookupInt_foldl_update_of_mem (arrivals : List (String × Result))
    (fc : List (String × Int)) (name : String) (r : Result)
    (hnd : (arrivals.map Prod.fst).Nodup) (hmem : (name, r) ∈ arrivals) :
    lookupInt (arrivals.foldl (fun fc nr => updateFailureCounts fc nr.1 nr.2) fc) name =
      if r.status = .healthy then 0 else lookupInt fc name + 1 := by
  induction arrivals generalizing fc with
  | nil => simp at hmem
  | cons hd tl ih =>
    obtain ⟨n0, r0⟩ := hd
    simp only [List.map_cons, List.nodup_cons] at hnd
    rcases List.mem_cons.1 hmem with heq | hmem2
    · cases heq
      simp only [List.foldl_cons]
      unfold lookupInt
      rw [mapLookup_foldl_update_not_mem _ _ _ hnd.1]
      unfold updateFailureCounts
      by_cases hs : r.status = Status.healthy
      · simp [hs, mapLookup_mapSet_self, lookupInt]
      · simp [hs, mapLookup_mapSet_self, lookupInt]
    · have hne : n0 ≠ name := by
        intro he
        exact hnd.1 (he ▸ List.mem_map.2 ⟨(name, r), hmem2, rfl⟩)
      simp only [List.foldl_cons]
      rw [ih _ hnd.2 hmem2]
      by_cases hr : r.status = Status.healthy
      · simp [hr]
      · simp only [hr, if_false]
        unfold updateFailureCounts lookupInt
        by_cases hr0 : r0.status = Status.healthy
        · simp [hr0, mapLookup_mapSet_ne _ _ _ _ hne]
        · simp [hr0, mapLookup_mapSet_ne _ _ _ _ hne]

theorem Check_fast_path (m : Manager) (ctx : GoCtx) (now : Nat) (r0 : Report)
    (hcache : m.cachedReport = some r0) (htime : now - m.cacheTime < m.config.CacheTTL) :
    Check m ctx now = (r0, m) := by
  simp [Check, hcache, htime]

theorem invokedBy_fast_path (m : Manager) (now : Nat) (r0 : Report)
    (hcache : m.cachedReport = some r0) (htime : now - m.cacheTime < m.config.CacheTTL) :
    invokedBy m now = [] := by
  simp [invokedBy, hcache, htime]

/-- C2: with a cached Report younger than CacheTTL, Check returns it
unchanged, touches no state, and invokes no checker; consequently two Check
calls within the freshness window on a manager starting with an empty cache
and no registration changes return identical Reports, and the checkers are
invoked exactly once combined (all on the first call, none on the second). -/
theorem Check_cache_semantics :
    (∀ (m : Manager) (ctx : GoCtx) (now : Nat) (r0 : Report),
      m.cachedReport = some r0 → now - m.cacheTime < m.config.CacheTTL →
        Check m ctx now = (r0, m) ∧ invokedBy m now = [])
    ∧ (∀ (m : Manager) (ctx : GoCtx) (t1 t2 : Nat),
      m.cachedReport = none → t2 - t1 < m.config.CacheTTL →
        (Check (Check m ctx t1).2 ctx t2).1 = (Check m ctx t1).1
        ∧ (Check (Check m ctx t1).2 ctx t2).2 = (Check m ctx t1).2
        ∧ invokedBy m t1 = m.checkers.map CheckerSpec.name
        ∧ invokedBy (Check m ctx t1).2 t2 = []) := by
  constructor
  · intro m ctx now r0 hcache htime
    exact ⟨Check_fast_path m ctx now r0 hcache htime,
      invokedBy_fast_path m now r0 hcache htime⟩
  · intro m ctx t1 t2 hnone htime
    have h1 : Check m ctx t1 = runChecks m ctx t1 := by
      simp [Check, hnone]
    have hfast : Check (Check m ctx t1).2 ctx t2 = ((Check m ctx t1).1, (Check m ctx t1).2) := by
      rw [h1]
      exact Check_fast_path (runChecks m ctx t1).2 ctx t2 (runChecks m ctx t1).1 rfl htime
    refine ⟨by rw [hfast], by rw [hfast], by simp [invokedBy, hnone], ?_⟩
    rw [h1]
    exact invokedBy_fast_path (runChecks m ctx t1).2 t2 (runChecks m ctx t1).1 rfl htime

/-- ctxW is a request context whose deadline has not expired. -/
def ctxW : GoCtx :=
  { deadlineExceeded := false }

/-- reportW is a concrete report used to seed a cache. -/
def reportW : Report :=
  NewReport [] [] 0

/-- managerW1 is a manager whose cache holds reportW, created at instant 0. -/
def managerW1 : Manager :=
  { config := DefaultManagerConfig
    checkers := []
    requiredChecks := []
    cachedReport := some (reportW)
    cacheTime := 0
    failureCounts := [] }

/-- checkerW is a concrete always-healthy checker. -/
def checkerW : CheckerSpec :=
  { name := "postgres", required := true, latency := 0,
    check := fun _ t => NewHealthyResult 0 t }

/-- managerW2 is a fresh manager (empty cache) with checkerW registered. -/
def managerW2 : Manager :=
  Register (NewManager DefaultManagerConfig) checkerW

theorem Check_cache_semantics_witness :
    (managerW1.cachedReport = some reportW
      ∧ 3 - managerW1.cacheTime < managerW1.config.CacheTTL
      ∧ Check managerW1 ctxW 3 = (reportW, managerW1) ∧ invokedBy managerW1 3 = [])
    ∧ (managerW2.cachedReport = none
      ∧ 7 - 2 < managerW2.config.CacheTTL
      ∧ (Check (Check managerW2 ctxW 2).2 ctxW 7).1 = (Check managerW2 ctxW 2).1
      ∧ (Check (Check managerW2 ctxW 2).2 ctxW 7).2 = (Check managerW2 ctxW 2).2
      ∧ invokedBy managerW2 2 = managerW2.checkers.map CheckerSpec.name
      ∧ invokedBy (Check managerW2 ctxW 2).2 7 = []) :=
  ⟨⟨rfl, by decide, Check_cache_semantics.1 managerW1 ctxW 3 reportW rfl (by decide)⟩,
    ⟨rfl, by decide, Check_cache_semantics.2 managerW2 ctxW 2 7 rfl (by decide)⟩⟩

/-- C4: in every evaluation cycle that runs checks, the consecutive-failure
counter of a checker becomes zero when its Result is healthy and its
previous value plus one otherwise (checker names assumed unique, as the Go
report map keys are). -/
theorem runChecks_failure_counter (m : Manager) (ctx : GoCtx) (now : Nat) (c : CheckerSpec)
    (hnd : (m.checkers.map CheckerSpec.name).Nodup) (hc : c ∈ m.checkers) :
    GetFailureCount (runChecks m ctx now).2 c.name =
      if (c.check (checkCtxFor m.config ctx c) now).status = .healthy then 0
      else GetFailureCount m c.name + 1 := by
  have harr : (c.name, c.check (checkCtxFor m.config ctx c) now) ∈
      m.checkers.map (fun c => (c.name, c.check (checkCtxFor m.config ctx c) now)) :=
    List.mem_map.2 ⟨c, hc, rfl⟩
  have hnd2 : ((m.checkers.map
      (fun c => (c.name, c.check (checkCtxFor m.config ctx c) now))).map Prod.fst).Nodup := by
    rw [List.map_map]
    exact hnd
  exact lookupInt_foldl_update_of_mem _ m.failureCounts c.name _ hnd2 harr

/-- checkerX fails at instants 0 and 1 and succeeds from instant 2 on. -/
def checkerX : CheckerSpec :=
  { name := "x", required := true, latency := 0,
    check := fun _ t => if t < 2 then NewUnhealthyResult 0 (some ("boom")) t
      else NewHealthyResult 0 t }

/-- managerX is a fresh manager with checkerX registered. -/
def managerX : Manager :=
  Register (NewManager DefaultManagerConfig) checkerX

/-- managerX1, managerX2, managerX3 are the states after three
cache-bypassing evaluation cycles at instants 0, 1, 2. -/
def managerX1 : Manager :=
  (runChecks managerX ctxW 0).2

/-- managerX2 is the state after the second cycle. -/
def managerX2 : Manager :=
  (runChecks managerX1 ctxW 1).2

/-- managerX3 is the state after the third cycle. -/
def managerX3 : Manager :=
  (runChecks managerX2 ctxW 2).2

theorem runChecks_failure_counter_witness :
    (managerX.checkers.map CheckerSpec.name).Nodup ∧ checkerX ∈ managerX.checkers
    ∧ GetFailureCount (runChecks managerX ctxW 0).2 checkerX.name =
        (if (checkerX.check (checkCtxFor managerX.config ctxW checkerX) 0).status = .healthy
          then 0 else GetFailureCount managerX checkerX.name + 1)
    ∧ GetFailureCount managerX1 ("x") = 1
    ∧ GetFailureCount managerX2 ("x") = 2
    ∧ GetFailureCount managerX3 ("x") = 0 :=
  ⟨by decide, List.mem_singleton_self checkerX,
    runChecks_failure_counter managerX ctxW 0 checkerX (by decide)
      (List.mem_singleton_self checkerX),
    by decide, by decide, by decide⟩

/-- withFailureState m fc th is the manager m with its consecutive-failure
counters replaced by fc and its configured FailureThreshold replaced by th,
everything else unchanged. -/
def withFailureState (m : Manager) (fc : List (String × Int)) (th : Int) : Manager :=
  { m with
      failureCounts := fc
      config := { m.config with FailureThreshold := th } }

/-- C7: the overall status is independent of the consecutive-failure
counters and of the configured FailureThreshold: an evaluation cycle (and a
cache-aware Check) on a manager differing only in those two produces the
same overall status. -/
theorem aggregate_ignores_failure_state (m : Manager) (ctx : GoCtx) (now : Nat)
    (fc : List (String × Int)) (th : Int) :
    ((runChecks (withFailureState m fc th) ctx now).1).status
      = ((runChecks m ctx now).1).status
    ∧ ((Check (withFailureState m fc th) ctx now).1).status
      = ((Check m ctx now).1).status := by
  constructor
  · rfl
  · have hcr : (withFailureState m fc th).cachedReport = m.cachedReport := rfl
    have hct : (withFailureState m fc th).cacheTime = m.cacheTime := rfl
    have httl : (withFailureState m fc th).config.CacheTTL = m.config.CacheTTL := rfl
    cases hc : m.cachedReport with
    | none =>
      simp only [Check, hcr, hc]
      rfl
    | some r =>
      simp only [Check, hcr, hc, hct, httl]
      by_cases ht : now - m.cacheTime < m.config.CacheTTL
      · simp only [if_pos ht]
      · simp only [if_neg ht]
        rfl

/-- C5: IsReady is true exactly when the Check report is healthy or
degraded, and the readiness handler answers 200 in exactly those cases and
503 exactly when the report is unhealthy, with the report as the body. -/
theorem IsReady_ReadyHandler_truth_table (m : Manager) (ctx : GoCtx) (now : Nat) :
    ((IsReady m ctx now).1 = true ↔
      ((Check m ctx now).1.status = .healthy ∨ (Check m ctx now).1.status = .degraded))
    ∧ ((ReadyHandler m ctx now).1.1 = 200 ↔
      ((Check m ctx now).1.status = .healthy ∨ (Check m ctx now).1.status = .degraded))
    ∧ ((ReadyHandler m ctx now).1.1 = 503 ↔ (Check m ctx now).1.status = .unhealthy)
    ∧ (ReadyHandler m ctx now).1.2 = (Check m ctx now).1 := by
  rcases hs : (Check m ctx now).1.status with _ | _ | _ <;>
    refine ⟨?_, ?_, ?_, rfl⟩ <;> simp [IsReady, ReadyHandler, hs]

/-- C6: IsStarted is a fresh derivation from the Check report on each call —
true exactly when that report is healthy (degraded does not count as
started) — and the state it leaves behind is exactly the state Check leaves
behind; the Manager state carries no persistent started latch. -/
theorem IsStarted_truth_table (m : Manager) (ctx : GoCtx) (now : Nat) :
    ((IsStarted m ctx now).1 = true ↔ (Check m ctx now).1.status = .healthy)
    ∧ ((IsStarted m ctx now).1 = false ↔
        ((Check m ctx now).1.status = .degraded ∨ (Check m ctx now).1.status = .unhealthy))
    ∧ (IsStarted m ctx now).2 = (Check m ctx now).2 := by
  rcases hs : (Check m ctx now).1.status with _ | _ | _ <;>
    refine ⟨?_, ?_, rfl⟩ <;> simp [IsStarted, hs]

/-- deadlineExceededMsg is the message of the Go context.DeadlineExceeded
error, which a context-honoring operation reports once its deadline has
expired. -/
def deadlineExceededMsg : String :=
  "context deadline exceeded"

/-- ctxRespecting captures the Checker capability contract (the probe must
respect the supplied cancellable deadline): the underlying operation of the
probe returns the context deadline error once the deadline has expired. Each
concrete checker of the repository (Postgres ping, Redis ping, Kafka
metadata fetch, outbound HTTP request, wrapped function) receives exactly
such a non-nil error from its context-honoring call. -/
def ctxRespecting (checkFn : GoCtx → Nat → Option String) : Prop :=
  ∀ (ctx : GoCtx) (t : Nat), ctx.deadlineExceeded = true →
    checkFn ctx t = some (deadlineExceededMsg)

/-- NewFuncChecker mirrors health.NewFuncChecker (the FuncChecker variant;
the Postgres/Redis/Kafka checkers have the same shape): `check` runs the
supplied probe and wraps a non-nil error into NewUnhealthyResult and success
into NewHealthyResult. The reported duration is the wall-clock
latency of the probe, measured in Go as time.Since(start). -/
def NewFuncChecker (name : String) (checkFn : GoCtx → Nat → Option String)
    (required : Bool) (latency : Nat) : CheckerSpec :=
  { name := name
    required := required
    latency := latency
    check := fun ctx t =>
      match checkFn ctx t with
      | some err => NewUnhealthyResult (Int.ofNat latency) (some err) t
      | none => NewHealthyResult (Int.ofNat latency) t }

/-- C3: a registered deadline-respecting checker whose per-check deadline
(derived from the configured default timeout) expires during the cycle is
recorded in the report of the cycle as an unhealthy Result under its name whose
error is the context timeout message; and no checker outcome escapes the
cycle — the name of every registered checker is bound to some Result in the
report (checker misbehavior surfaces only as a Result value; `check` is
total by the Go signature). -/
theorem runChecks_timeout_unhealthy (m : Manager) (ctx : GoCtx) (now : Nat)
    (name : String) (checkFn : GoCtx → Nat → Option String) (required : Bool) (latency : Nat)
    (hnd : (m.checkers.map CheckerSpec.name).Nodup)
    (hmem : NewFuncChecker name checkFn required latency ∈ m.checkers)
    (hresp : ctxRespecting checkFn)
    (hto : m.config.Timeout ≤ latency) :
    (mapLookup (runChecks m ctx now).1.checks name =
        some (NewUnhealthyResult (Int.ofNat latency) (some (deadlineExceededMsg)) now))
    ∧ (NewUnhealthyResult (Int.ofNat latency) (some (deadlineExceededMsg)) now).status =
        .unhealthy
    ∧ (NewUnhealthyResult (Int.ofNat latency) (some (deadlineExceededMsg)) now).error =
        deadlineExceededMsg
    ∧ deadlineExceededMsg ≠ ""
    ∧ ∀ c ∈ m.checkers, ∃ r, mapLookup (runChecks m ctx now).1.checks c.name = some r := by
  have hnd2 : ((m.checkers.map
      (fun c => (c.name, c.check (checkCtxFor m.config ctx c) now))).map Prod.fst).Nodup := by
    rw [List.map_map]
    exact hnd
  have hlook : ∀ c ∈ m.checkers, mapLookup (runChecks m ctx now).1.checks c.name =
      some (c.check (checkCtxFor m.config ctx c) now) := by
    intro c hc
    exact mapLookup_foldl_mapSet_of_mem _ [] c.name _ hnd2 (List.mem_map.2 ⟨c, hc, rfl⟩)
  have hctx : checkCtxFor m.config ctx (NewFuncChecker name checkFn required latency) =
      { deadlineExceeded := true } := by
    simp [checkCtxFor, NewFuncChecker, hto]
  have hcheck : (NewFuncChecker name checkFn required latency).check
      { deadlineExceeded := true } now =
      NewUnhealthyResult (Int.ofNat latency) (some (deadlineExceededMsg)) now := by
    have h := hresp { deadlineExceeded := true } now rfl
    simp [NewFuncChecker, h]
  refine ⟨?_, rfl, rfl, by decide, fun c hc => ⟨_, hlook c hc⟩⟩
  have hmain := hlook _ hmem
  rw [hctx, hcheck] at hmain
  exact hmain

/-- timeoutProbe honors its context: it reports the deadline error when the
deadline has expired and succeeds otherwise. -/
def timeoutProbe : GoCtx → Nat → Option String :=
  fun ctx _ => if ctx.deadlineExceeded then some (deadlineExceededMsg) else none

/-- checkerT is a context-honoring checker whose probe takes 6s, above the
default 5s timeout. -/
def checkerT : CheckerSpec :=
  NewFuncChecker ("slow") timeoutProbe true 6000000000

/-- managerT is a fresh manager with checkerT registered. -/
def managerT : Manager :=
  Register (NewManager DefaultManagerConfig) checkerT

theorem runChecks_timeout_unhealthy_witness :
    ((managerT.checkers.map CheckerSpec.name).Nodup
      ∧ checkerT ∈ managerT.checkers
      ∧ managerT.config.Timeout ≤ 6000000000)
    ∧ mapLookup (runChecks managerT ctxW 0).1.checks ("slow") =
        some (NewUnhealthyResult (Int.ofNat 6000000000) (some (deadlineExceededMsg)) 0)
    ∧ (∀ c ∈ managerT.checkers, ∃ r,
        mapLookup (runChecks managerT ctxW 0).1.checks c.name = some r) :=
  have hresp : ctxRespecting timeoutProbe := fun ctx t h => by
    simp [timeoutProbe, h]
  have main := runChecks_timeout_unhealthy managerT ctxW 0 ("slow") timeoutProbe true
    6000000000 (by decide) (List.mem_singleton_self checkerT) hresp (by decide)
  ⟨⟨by decide, List.mem_singleton_self checkerT, by decide⟩, main.1, main.2.2.2.2⟩

/-- SchedState models the background-scheduler lifecycle state of one
Manager: how many scheduler goroutines StartBackground has launched and not
yet exited (`bgCount`), and whether the stopCh / doneCh channels have been
closed. NewManager creates both channels open with no goroutine running. -/
structure SchedState where
  bgCount : Nat
  stopClosed : Bool
  doneClosed : Bool
deriving DecidableEq, Repr

/-- newManagerSched is the scheduler state of a freshly constructed
Manager. -/
def newManagerSched : SchedState :=
  { bgCount := 0, stopClosed := false, doneClosed := false }

/-- StartBackground models Manager.StartBackground: it unconditionally
launches one more background goroutine (`go func() { ... }`). The source has
no guard against a scheduler already running, so a second call launches a
second loop. -/
def StartBackground (s : SchedState) : SchedState :=
  { s with bgCount := s.bgCount + 1 }

/-- stopSignal models the first statement of Manager.StopBackground,
`close(m.stopCh)`; the caller then blocks on the receive `<-m.doneCh`. -/
def stopSignal (s : SchedState) : SchedState :=
  { s with stopClosed := true }

/-- bgStep is the only autonomous transition available while the caller sits
in the StopBackground receive: a running background goroutine returns (on
the stop signal or the cancellation of its context — the rule over-approximates by
allowing exit at any time) and its deferred `close(m.doneCh)` runs. No
transition creates a goroutine; only StartBackground does. -/
inductive bgStep : SchedState → SchedState → Prop
  | exit (s : SchedState) (hrun : 0 < s.bgCount) :
      bgStep s { s with bgCount := s.bgCount - 1, doneClosed := true }

/-- bgReachable s s2 holds when the channel state can evolve from s to s2
while the caller stays blocked in the StopBackground receive. -/
def bgReachable : SchedState → SchedState → Prop :=
  Relation.ReflTransGen bgStep

/-- stopWaitCanComplete s says the receive `<-m.doneCh` in StopBackground
can ever unblock when entered in state s: some state reachable from s has
doneCh closed. -/
def stopWaitCanComplete (s : SchedState) : Prop :=
  ∃ s2, bgReachable s s2 ∧ s2.doneClosed = true

theorem bgReachable_no_goroutine (s s2 : SchedState) (h : bgReachable s s2)
    (h0 : s.bgCount = 0) (h1 : s.doneClosed = false) :
    s2.bgCount = 0 ∧ s2.doneClosed = false := by
  induction h with
  | refl => exact ⟨h0, h1⟩
  | tail hr hstep ih =>
    cases hstep with
    | exit hrun =>
      rw [ih.1] at hrun
      exact absurd hrun (by decide)

/-- C8 counterexample: at the concrete input of the claim — a manager whose
scheduler was never started — StopBackground closes stopCh and then blocks
forever: no reachable state ever has doneCh closed, so the call neither
fails fast nor returns; and StartBackground called twice without an
intervening stop silently launches a second scheduler loop instead of
failing. -/
theorem stopBackground_never_started_hangs :
    ¬ stopWaitCanComplete (stopSignal newManagerSched)
    ∧ (StartBackground (StartBackground newManagerSched)).bgCount = 2 := by
  constructor
  · rintro ⟨s2, hreach, hdone⟩
    have h := bgReachable_no_goroutine _ _ hreach rfl rfl
    rw [h.2] at hdone
    exact absurd hdone (by decide)
  · rfl

theorem bgReachable_single_goroutine (s0 s2 : SchedState) (h : bgReachable s0 s2)
    (hinv : (s0.doneClosed = false ∧ s0.bgCount = 1) ∨
      (s0.doneClosed = true ∧ s0.bgCount = 0)) :
    (s2.doneClosed = false ∧ s2.bgCount = 1) ∨ (s2.doneClosed = true ∧ s2.bgCount = 0) := by
  induction h with
  | refl => exact hinv
  | tail hr hstep ih =>
    cases hstep with
    | exit hrun =>
      rcases ih with ⟨hd, hc⟩ | ⟨hd, hc⟩
      · right
        simp [hc]
      · rw [hc] at hrun
        exact absurd hrun (by decide)

/-- C8 amended: stopping a scheduler that was never started does not fail
fast — the caller blocks forever because doneCh is never closed — and
double-starting is not guarded: it silently launches a second scheduler
loop. When exactly one scheduler was started, StopBackground does block the
caller until the background task has actually exited: every reachable state
in which the receive unblocks (doneCh closed) has no running scheduler
goroutine left, and such a state is reachable. -/
theorem stopBackground_lifecycle (s2 : SchedState)
    (hreach : bgReachable (stopSignal (StartBackground newManagerSched)) s2)
    (hdone : s2.doneClosed = true) :
    s2.bgCount = 0
    ∧ ¬ stopWaitCanComplete (stopSignal newManagerSched)
    ∧ (StartBackground (StartBackground newManagerSched)).bgCount = 2
    ∧ stopWaitCanComplete (stopSignal (StartBackground newManagerSched)) := by
  refine ⟨?_, ?_, rfl, ?_⟩
  · have h := bgReachable_single_goroutine _ _ hreach (by left; exact ⟨rfl, rfl⟩)
    rcases h with ⟨hd, _⟩ | ⟨_, hc⟩
    · rw [hd] at hdone
      exact absurd hdone (by decide)
    · exact hc
  · rintro ⟨s3, hreach3, hdone3⟩
    have h := bgReachable_no_goroutine _ _ hreach3 rfl rfl
    rw [h.2] at hdone3
    exact absurd hdone3 (by decide)
  · refine ⟨{ bgCount := 0, stopClosed := true, doneClosed := true }, ?_, rfl⟩
    have hstep := bgStep.exit (stopSignal (StartBackground newManagerSched)) (by decide)
    exact Relation.ReflTransGen.single hstep

theorem stopBackground_lifecycle_witness :
    bgReachable (stopSignal (StartBackground newManagerSched))
        { bgCount := 0, stopClosed := true, doneClosed := true }
    ∧ ({ bgCount := 0, stopClosed := true, doneClosed := true } : SchedState).doneClosed = true
    ∧ ({ bgCount := 0, stopClosed := true, doneClosed := true } : SchedState).bgCount = 0 :=
  have hreach : bgReachable (stopSignal (StartBackground newManagerSched))
      { bgCount := 0, stopClosed := true, doneClosed := true } :=
    Relation.ReflTransGen.single
      (bgStep.exit (stopSignal (StartBackground newManagerSched)) (by decide))
  ⟨hreach, rfl, (stopBackground_lifecycle _ hreach rfl).1⟩

/-- ConstructorBuilt holds of every Result assembled through the public
constructors and WithDetails chains of health/checker.go. -/
inductive ConstructorBuilt : Result → Prop
  | healthy (duration : Int) (now : Nat) :
      ConstructorBuilt (NewHealthyResult duration now)
  | unhealthy (duration : Int) (err : Option String) (now : Nat) :
      ConstructorBuilt (NewUnhealthyResult duration err now)
  | degraded (duration : Int) (message : String) (now : Nat) :
      ConstructorBuilt (NewDegradedResult duration message now)
  | withDetails (r : Result) (details : List (String × String)) :
      ConstructorBuilt r → ConstructorBuilt (WithDetails r details)

/-- C9: NewHealthyResult always carries an empty error, WithDetails
preserves both status and error, and consequently every constructor-built
Result with healthy status has an empty error string. -/
theorem healthy_implies_empty_error :
    (∀ (duration : Int) (now : Nat), (NewHealthyResult duration now).error = "")
    ∧ (∀ (r : Result) (details : List (String × String)),
        (WithDetails r details).status = r.status ∧ (WithDetails r details).error = r.error)
    ∧ ∀ r : Result, ConstructorBuilt r → r.status = .healthy → r.error = "" := by
  refine ⟨fun _ _ => rfl, fun _ _ => ⟨rfl, rfl⟩, ?_⟩
  intro r hb
  induction hb with
  | healthy duration now => intro _; rfl
  | unhealthy duration err now =>
    intro h
    exact absurd h (by simp [NewUnhealthyResult])
  | degraded duration message now =>
    intro h
    exact absurd h (by simp [NewDegradedResult])
  | withDetails r details hb ih =>
    intro h
    exact ih h

theorem healthy_implies_empty_error_witness :
    ConstructorBuilt (WithDetails (NewHealthyResult 7 3) [("k", "v")])
    ∧ (WithDetails (NewHealthyResult 7 3) [("k", "v")]).status = .healthy
    ∧ (WithDetails (NewHealthyResult 7 3) [("k", "v")]).error = "" :=
  have hb : ConstructorBuilt (WithDetails (NewHealthyResult 7 3) [("k", "v")]) :=
    ConstructorBuilt.withDetails _ _ (ConstructorBuilt.healthy 7 3)
  ⟨hb, rfl, healthy_implies_empty_error.2.2 _ hb rfl⟩

/-- C10: NewUnhealthyResult applied to a nil error is well-defined (the
embedding is a total function, as the Go code branches on err == nil before
calling err.Error()): it yields status unhealthy with an empty error string
— the "unhealthy implies non-empty error" expectation is not enforced
here. -/
theorem NewUnhealthyResult_nil_error (duration : Int) (now : Nat) :
    (NewUnhealthyResult duration none now).status = .unhealthy
    ∧ (NewUnhealthyResult duration none now).error = "" :=
  ⟨rfl, rfl⟩

end Health
